import Mathlib

/-!
Verification of the site-crawler subsystem of the Chat-Automation-Agent
repository: a shallow embedding of the crawler found in
`scripts/site-crawler.js` (puppeteer variant, class `SiteCrawler`), the
extension variant (`SiteCrawlerExtension`), the proxy-server page keyword
extractor, and the page-inspection script, together with theorems settling
the behavioural claims about them.

Modelling conventions:
* JS URL objects (`new URL(url, base)`) are an external library; they are
  modelled by the structure `URLParts` (already-parsed absolute URL) and
  the inductive `RawUrl` (an input string that parses as absolute, is a
  path-relative reference, or fails to parse).  Resolution against a base
  is `resolveURL`.
* Stateful methods are explicit state-passing functions over `CrawlState`.
* `Math.random` tokens are threaded as explicit string parameters.
* Timestamps (`new Date()`), screenshots, and the fields of page metadata
  that no claim touches (description, headings, element counts) are not
  modelled; browser navigation is an oracle `SitePages` mapping a URL
  string to the page content it serves (`none` models navigation failure
  or timeout).
* String operations mirror the JS ones on the character-list level
  (ASCII case mapping, as the source only manipulates ASCII attribute
  values and URL components).
-/

/-- Character-list lowercase of a string, modelling `String.prototype.toLowerCase`. -/
def lowerStr (s : String) : String :=
  (s.toList.map Char.toLower).asString

/-- Character-list trim of a string, modelling `String.prototype.trim`. -/
def trimStr (s : String) : String :=
  (((s.toList.dropWhile Char.isWhitespace).reverse.dropWhile Char.isWhitespace).reverse).asString

/-- Take the first `n` characters, modelling `String.prototype.substring(0, n)`. -/
def takeStr (s : String) (n : Nat) : String :=
  (s.toList.take n).asString

/-- Boolean substring search helper (used to model `String.prototype.includes`
and regex substring tests). -/
def substrAux (needle : List Char) : List Char → Bool
  | [] => needle.isEmpty
  | c :: rest => needle.isPrefixOf (c :: rest) || substrAux needle rest

/-- `substrB needle hay` models `hay.includes(needle)`. -/
def substrB (needle hay : String) : Bool :=
  substrAux needle.toList hay.toList

/-- `endsWithStr s suf` models `s.endsWith(suf)`. -/
def endsWithStr (s suf : String) : Bool :=
  suf.toList.isSuffixOf s.toList

/-- `startsWithStr s p` models `s.startsWith(p)`. -/
def startsWithStr (s p : String) : Bool :=
  p.toList.isPrefixOf s.toList

/-- A parsed absolute URL, modelling the components of a WHATWG `URL` object.
`protocol` includes the trailing colon (as in JS, e.g. `"https:"`); `search`
and `hash` include their leading delimiter or are empty. -/
structure URLParts where
  protocol : String
  hostname : String
  pathname : String
  search : String
  hash : String
deriving DecidableEq, Repr

/-- Serialization of a parsed URL, modelling `URL.prototype.toString`. -/
def urlToString (u : URLParts) : String :=
  u.protocol ++ "//" ++ u.hostname ++ u.pathname ++ u.search ++ u.hash

/-- An input URL string as handed to `new URL(url, base)`: it either parses
as an absolute URL, is a path-relative reference (resolved against the
base), or fails to parse. -/
inductive RawUrl where
  | abs (u : URLParts)
  | rel (pathname search hash : String)
  | malformed (s : String)
deriving DecidableEq, Repr

/-- Rendering of a raw URL input for error messages. -/
def rawUrlString : RawUrl → String
  | .abs u => urlToString u
  | .rel p q f => p ++ q ++ f
  | .malformed s => s

/-- Resolution `new URL(url, base)` of the external WHATWG URL library:
absolute inputs parse to themselves, path-relative inputs resolve against
the base origin, unparseable inputs throw (modelled as `none`). -/
def resolveURL : RawUrl → URLParts → Option URLParts
  | .abs u, _ => some u
  | .rel p q f, base => some { base with pathname := p, search := q, hash := f }
  | .malformed _, _ => none

/-- The per-crawl configuration fields that influence the verified
behaviour, from `DEFAULT_CONFIG` merged with caller overrides
(`this.config = { ...DEFAULT_CONFIG, ...config }`). -/
structure CrawlConfig where
  maxDepth : Nat
  maxPages : Nat
  maxLinksPerPage : Nat
  ignoreParams : Bool
  followExternalLinks : Bool
  captureButtonInteractions : Bool
deriving DecidableEq, Repr

/-- A graph edge, from `addEdge` (`from` and `to` are Lean keywords, hence
`from_` and `to_`; `timestamp` is not modelled). -/
structure Edge where
  from_ : String
  to_ : String
  type : String
  text : String
  selector : String
deriving DecidableEq, Repr

/-- A graph node, from `addNode` and the virtual-node assignment in the
button-processing loop.  Metadata fields no claim touches are omitted. -/
structure PageNode where
  id : String
  url : String
  title : String
  virtual : Bool
deriving DecidableEq, Repr

/-- The site graph `this.siteGraph = { nodes: {}, edges: [] }`: `nodes` is a
JS object keyed by node id (modelled as an association list preserving
insertion order), `edges` an append-only array. -/
structure SiteGraph where
  nodes : List (String × PageNode)
  edges : List Edge
deriving DecidableEq, Repr

/-- The crawl statistics `this.stats` (timestamps and the extension-only
`elementsFound` counter are not modelled). -/
structure CrawlStats where
  pagesVisited : Nat
  linksFound : Nat
  errors : List String
deriving DecidableEq, Repr

/-- The mutable state of one crawler instance: the graph, the visited-URL
set (`this.visitedUrls`), the work queue of `{url, depth}` entries
(`this.urlQueue`), and the statistics. -/
structure CrawlState where
  graph : SiteGraph
  visited : List String
  queue : List (URLParts × Nat)
  stats : CrawlStats
deriving DecidableEq, Repr

/-- `getNodeId(url)`: derive a node id from the URL's path only — drop a
trailing slash, map the root path to `home`, drop the leading slash,
replace non-alphanumeric characters by `_`, lowercase, and default the
empty result to `home`. -/
def getNodeId (u : URLParts) : String :=
  let path := u.pathname
  let path := if endsWithStr path "/" ∧ path ≠ "/" then (path.toList.dropLast).asString else path
  let path := if path = "/" then "/home" else path
  let id := ((path.toList.drop 1).map (fun c => if c.isAlphanum then c.toLower else '_')).asString
  if id = "" then "home" else id

/-- Error message pushed by `normalizeUrl` on a malformed URL. -/
def normalizeErrorMsg (url : RawUrl) : String :=
  "Error normalizing URL " ++ rawUrlString url

/-- `normalizeUrl(url, base)`: resolve against the base, always clear the
fragment, clear the query string when `ignoreParams` is set; on a parse
failure push an error message and return `null` (never throw). -/
def normalizeUrl (cfg : CrawlConfig) (url : RawUrl) (base : URLParts)
    (errors : List String) : Option URLParts × List String :=
  match resolveURL url base with
  | none => (none, errors ++ [normalizeErrorMsg url])
  | some a =>
    (some { a with hash := "", search := if cfg.ignoreParams then "" else a.search }, errors)

/-- The denylist of file extensions `shouldCrawl` refuses to visit. -/
def fileExtensions : List String :=
  [".jpg", ".jpeg", ".png", ".gif", ".pdf", ".zip",
   ".doc", ".docx", ".xls", ".xlsx", ".ppt", ".pptx"]

/-- Error message pushed by `shouldCrawl` when URL parsing throws. -/
def checkErrorMsg (url : RawUrl) : String :=
  "Error checking URL " ++ rawUrlString url

/-- `shouldCrawl(url)`: parse the URL (a parse failure is caught, logged to
`stats.errors` and yields `false`); refuse protocols not starting with
`http`, foreign hosts unless `followExternalLinks`, already-visited URLs,
and denylisted file extensions.  Returns the verdict together with the
possibly-extended error list. -/
def shouldCrawl (cfg : CrawlConfig) (baseHostname : String) (visited : List String)
    (url : RawUrl) (errors : List String) : Bool × List String :=
  match url with
  | .abs p =>
    if ¬ startsWithStr p.protocol "http" then (false, errors)
    else if ¬ cfg.followExternalLinks ∧ p.hostname ≠ baseHostname then (false, errors)
    else if urlToString p ∈ visited then (false, errors)
    else if fileExtensions.any (fun ext => endsWithStr (lowerStr p.pathname) ext) then
      (false, errors)
    else (true, errors)
  | u => (false, errors ++ [checkErrorMsg u])

/-- `addNode(url, metadata)`: upsert a node keyed by `getNodeId(url)` — a
fresh node on first visit, otherwise the stored node with the new metadata
spread over it.  Returns the updated graph and the node id. -/
def addNode (g : SiteGraph) (u : URLParts) (title : String) : SiteGraph × String :=
  let id := getNodeId u
  match g.nodes.find? (fun p => p.1 == id) with
  | none =>
    ({ g with nodes := g.nodes ++
        [(id, { id := id, url := urlToString u, title := title, virtual := false })] }, id)
  | some entry =>
    let old := entry.2
    ({ g with nodes := g.nodes.map (fun p =>
        if p.1 == id then (id, { old with title := title }) else p) }, id)

/-- `addEdge(fromUrl, toUrl, metadata)`: append one edge whose endpoints are
the node ids of the two URLs. -/
def addEdge (g : SiteGraph) (fromUrl toUrl : URLParts) (ty text selector : String) : SiteGraph :=
  { g with edges := g.edges ++
      [{ from_ := getNodeId fromUrl, to_ := getNodeId toUrl,
         type := ty, text := text, selector := selector }] }

/-- Upsert-by-key for the node map, modelling a direct JS object property
assignment `nodes[id] = node`. -/
def setNode (nodes : List (String × PageNode)) (id : String) (node : PageNode) :
    List (String × PageNode) :=
  if nodes.any (fun p => p.1 == id) then
    nodes.map (fun p => if p.1 == id then (id, node) else p)
  else nodes ++ [(id, node)]

/-- Lowercase-and-underscore slug, modelling
`text.toLowerCase().replace(/[^a-z0-9]/g, '_')`. -/
def slugChars (s : String) : List Char :=
  s.toList.map (fun c =>
    let c := c.toLower
    if c.isLower ∨ c.isDigit then c else '_')

/-- String form of `slugChars`. -/
def slugify (s : String) : String :=
  (slugChars s).asString

/-- The virtual-node-plus-edge assignment performed for each discovered
button (identical in `crawlPage` of the puppeteer variant and
`processPageData` of the extension variant). -/
def addVirtualButton (g : SiteGraph) (u : URLParts) (nodeId pageTitle text selector : String) :
    SiteGraph :=
  let buttonNodeId := nodeId ++ "_button_" ++ slugify text
  { g with
    nodes := setNode g.nodes buttonNodeId
      { id := buttonNodeId, url := urlToString u ++ "#action-" ++ text,
        title := "After " ++ text ++ " on " ++ pageTitle, virtual := true },
    edges := g.edges ++
      [{ from_ := nodeId, to_ := buttonNodeId, type := "button",
         text := text, selector := selector }] }

/-- One anchor element as seen by the in-page extraction script: its raw
`href` attribute when present (`getAttribute('href')`), its visible text,
and a best-effort selector. -/
structure Anchor where
  href : Option RawUrl
  text : String
  selector : String
deriving DecidableEq, Repr

/-- One button element as seen by the in-page extraction script. -/
structure PageButton where
  text : String
  selector : String
deriving DecidableEq, Repr

/-- The content a URL serves: what the extraction scripts can observe of
the loaded DOM (restricted to the parts the verified claims touch). -/
structure Page where
  title : String
  anchors : List Anchor
  buttons : List PageButton
deriving DecidableEq, Repr

/-- The website under crawl, keyed by serialized URL: the navigation
oracle.  `none` for a URL models a navigation failure or timeout. -/
abbrev SitePages := List (String × Page)

/-- Look up the page a URL serves (`page.goto` followed by extraction). -/
def siteLookup (site : SitePages) (u : URLParts) : Option Page :=
  (site.find? (fun p => p.1 == urlToString u)).map (fun p => p.2)

/-- One entry of the combined result array built by `extractLinks` in the
puppeteer variant: anchors with an `href` (capped at `maxLinksPerPage`)
followed by all buttons. -/
inductive LinkItem where
  | link (href : RawUrl) (text selector : String)
  | button (text selector : String)
deriving DecidableEq, Repr

/-- Whether an item is an anchor entry. -/
def LinkItem.isLink : LinkItem → Bool
  | .link _ _ _ => true
  | .button _ _ => false

/-- `extractLinks(page)`: the first `maxLinksPerPage` anchors (those with an
`href` attribute), followed by every button on the page. -/
def extractLinks (cfg : CrawlConfig) (page : Page) : List LinkItem :=
  ((page.anchors.take cfg.maxLinksPerPage).filterMap
    (fun a => a.href.map (fun h => LinkItem.link h a.text a.selector))) ++
  page.buttons.map (fun b => LinkItem.button b.text b.selector)

/-- Processing of one entry of the extracted array inside `crawlPage`'s
link loop: a `link` entry is normalized and, when `shouldCrawl` passes,
gets an edge and is enqueued at `depth + 1` (unconditionally on the
depth); a `button` entry gets a virtual node and a `button` edge.  The
accumulator threads the graph, the queue and the error list. -/
def processItem (cfg : CrawlConfig) (baseHostname : String) (visited : List String)
    (u : URLParts) (nodeId pageTitle : String) (depth : Nat)
    (acc : SiteGraph × List (URLParts × Nat) × List String) (item : LinkItem) :
    SiteGraph × List (URLParts × Nat) × List String :=
  match item with
  | .link href text selector =>
    let g := acc.1
    let q := acc.2.1
    let errs := acc.2.2
    let r := normalizeUrl cfg href u errs
    match r.1 with
    | none => (g, q, r.2)
    | some n =>
      if (shouldCrawl cfg baseHostname visited (.abs n) r.2).1 then
        (addEdge g u n "link" text selector, q ++ [(n, depth + 1)], r.2)
      else (g, q, r.2)
  | .button text selector =>
    (addVirtualButton acc.1 u nodeId pageTitle text selector, acc.2.1, acc.2.2)

/-- Error message pushed by `crawlPage` when navigation fails. -/
def crawlErrorMsg (u : URLParts) : String :=
  "Error crawling " ++ urlToString u

/-- `crawlPage(url, depth)` of the puppeteer `SiteCrawler`: skip when
`shouldCrawl` refuses, the depth exceeds `maxDepth`, or the page budget is
exhausted; otherwise mark the URL visited *before* navigating, then
navigate (the oracle; a failure only logs an error), add the node, extract
links, process them, and finally increment `pagesVisited`. -/
def crawlPage (site : SitePages) (cfg : CrawlConfig) (baseHostname : String)
    (s : CrawlState) (u : URLParts) (depth : Nat) : CrawlState :=
  if ¬ (shouldCrawl cfg baseHostname s.visited (.abs u) s.stats.errors).1
      ∨ depth > cfg.maxDepth ∨ s.stats.pagesVisited ≥ cfg.maxPages then s
  else
    let s1 : CrawlState := { s with visited := s.visited ++ [urlToString u] }
    match siteLookup site u with
    | none =>
      { s1 with stats := { s1.stats with errors := s1.stats.errors ++ [crawlErrorMsg u] } }
    | some page =>
      let ns := addNode s1.graph u page.title
      let items := extractLinks cfg page
      let r := items.foldl
        (processItem cfg baseHostname s1.visited u ns.2 page.title depth)
        (ns.1, s1.queue, s1.stats.errors)
      { graph := r.1, visited := s1.visited, queue := r.2.1,
        stats := { pagesVisited := s1.stats.pagesVisited + 1,
                   linksFound := s1.stats.linksFound + items.length,
                   errors := r.2.2 } }

/-- The loop condition of `crawl()` is false: the queue is exhausted or the
page budget is reached. -/
def terminalState (cfg : CrawlConfig) (s : CrawlState) : Bool :=
  s.queue.isEmpty || cfg.maxPages ≤ s.stats.pagesVisited

/-- One iteration of the `crawl()` scheduler loop: pop the head `{url,
depth}` entry and run `crawlPage` on it. -/
def stepOnce (site : SitePages) (cfg : CrawlConfig) (baseHostname : String)
    (s : CrawlState) : CrawlState :=
  match s.queue with
  | [] => s
  | (u, d) :: rest => crawlPage site cfg baseHostname { s with queue := rest } u d

/-- The `crawl()` scheduler loop, fuel-indexed: keep iterating while the
loop condition holds and fuel remains. -/
def crawlSteps (site : SitePages) (cfg : CrawlConfig) (baseHostname : String) :
    Nat → CrawlState → CrawlState
  | 0, s => s
  | n + 1, s =>
    if terminalState cfg s then s
    else crawlSteps site cfg baseHostname n (stepOnce site cfg baseHostname s)

/-- Termination measure for the scheduler loop: pages still allowed, scaled
by the maximal queue growth of one iteration, plus the queue length. -/
def crawlMeasure (cfg : CrawlConfig) (s : CrawlState) : Nat :=
  (cfg.maxPages - s.stats.pagesVisited) * (cfg.maxLinksPerPage + 1) + s.queue.length

/-- The state `crawl()` starts from: empty graph and stats, the start URL
queued at depth 0. -/
def initState (startUrl : URLParts) : CrawlState :=
  { graph := { nodes := [], edges := [] }, visited := [],
    queue := [(startUrl, 0)],
    stats := { pagesVisited := 0, linksFound := 0, errors := [] } }

/-- The state in which the `crawl()` loop halts (running it for its full
measure of iterations). -/
def crawlFinal (site : SitePages) (cfg : CrawlConfig) (baseHostname : String)
    (startUrl : URLParts) : CrawlState :=
  crawlSteps site cfg baseHostname (crawlMeasure cfg (initState startUrl) + 1)
    (initState startUrl)

/-- `crawl()`'s return value: `{ graph: this.siteGraph, stats: this.stats }`. -/
def crawl (site : SitePages) (cfg : CrawlConfig) (baseHostname : String)
    (startUrl : URLParts) : SiteGraph × CrawlStats :=
  ((crawlFinal site cfg baseHostname startUrl).graph,
   (crawlFinal site cfg baseHostname startUrl).stats)


/-- `getDepthForUrl(url)` of the extension variant: the start URL has depth
0; otherwise look the URL up in the current queue, defaulting to
`maxDepth` when absent. -/
def getDepthForUrl (cfg : CrawlConfig) (startUrl : URLParts)
    (queue : List (URLParts × Nat)) (u : URLParts) : Nat :=
  if u = startUrl then 0
  else
    match queue.find? (fun e => decide (e.1 = u)) with
    | some e => e.2
    | none => cfg.maxDepth

/-- The anchors the extension's in-page script extracts: every anchor with
an `href` attribute (no `maxLinksPerPage` cap in this variant), as
`(href, text, selector)` triples. -/
def extExtractedLinks (page : Page) : List (RawUrl × String × String) :=
  page.anchors.filterMap (fun a => a.href.map (fun h => (h, a.text, a.selector)))

/-- Processing of one extracted link inside `processPageData` of the
extension variant: normalize; when `shouldCrawl` passes add a `link` edge
and, when `getDepthForUrl(url) < maxDepth` for the *current* page, enqueue
the target at that depth plus one. -/
def extProcessLink (cfg : CrawlConfig) (baseHostname : String) (startUrl u : URLParts)
    (visited : List String)
    (acc : SiteGraph × List (URLParts × Nat) × List String)
    (l : RawUrl × String × String) : SiteGraph × List (URLParts × Nat) × List String :=
  let g := acc.1
  let q := acc.2.1
  let errs := acc.2.2
  let r := normalizeUrl cfg l.1 u errs
  match r.1 with
  | none => (g, q, r.2)
  | some n =>
    if (shouldCrawl cfg baseHostname visited (.abs n) r.2).1 then
      let g := addEdge g u n "link" l.2.1 l.2.2
      let currentDepth := getDepthForUrl cfg startUrl q u
      if currentDepth < cfg.maxDepth then (g, q ++ [(n, currentDepth + 1)], r.2)
      else (g, q, r.2)
    else (g, q, r.2)

/-- `processPageData(url, pageData)` of the extension variant, restricted
to its navigation-relevant effects: add the node, *then* mark the URL
visited and bump `pagesVisited`, process the links, and add the virtual
button nodes when `captureButtonInteractions` is on.  (The
interactive-element keyword collection this method also performs is
modelled separately by `extensionPageKeywords`.) -/
def extProcessPageData (cfg : CrawlConfig) (baseHostname : String) (startUrl : URLParts)
    (s : CrawlState) (u : URLParts) (page : Page) : CrawlState :=
  let ns := addNode s.graph u page.title
  let visited1 := s.visited ++ [urlToString u]
  let links := extExtractedLinks page
  let r := links.foldl (extProcessLink cfg baseHostname startUrl u visited1)
    (ns.1, s.queue, s.stats.errors)
  let g2 :=
    if cfg.captureButtonInteractions then
      page.buttons.foldl (fun g b => addVirtualButton g u ns.2 page.title b.text b.selector) r.1
    else r.1
  { graph := g2, visited := visited1, queue := r.2.1,
    stats := { pagesVisited := s.stats.pagesVisited + 1,
               linksFound := s.stats.linksFound + links.length,
               errors := r.2.2 } }

/-- Error message pushed by the extension when a tab never finishes
loading. -/
def extTimeoutMsg (u : URLParts) : String :=
  "Timeout waiting for " ++ urlToString u ++ " to load"

/-- One round of the extension's `processNextUrl` → `crawlUrl` →
`processLoadedPage`/timeout → `processPageData` pipeline, sequentialized:
pop the next queue entry (its depth is discarded by `processNextUrl`),
skip it when `shouldCrawl` refuses, log a timeout when the tab never
loads, and otherwise run `processPageData`.  Note that the visited set is
only updated inside `processPageData`, i.e. after a successful
extraction. -/
def extStep (site : SitePages) (cfg : CrawlConfig) (baseHostname : String)
    (startUrl : URLParts) (s : CrawlState) : CrawlState :=
  match s.queue with
  | [] => s
  | (u, _) :: rest =>
    let s1 : CrawlState := { s with queue := rest }
    if ¬ (shouldCrawl cfg baseHostname s1.visited (.abs u) s1.stats.errors).1 then s1
    else
      match siteLookup site u with
      | none =>
        { s1 with stats := { s1.stats with errors := s1.stats.errors ++ [extTimeoutMsg u] } }
      | some page => extProcessPageData cfg baseHostname startUrl s1 u page

/-- The extension's scheduler, fuel-indexed, with `processNextUrl`'s loop
condition (queue non-empty and page budget not exhausted). -/
def extSteps (site : SitePages) (cfg : CrawlConfig) (baseHostname : String)
    (startUrl : URLParts) : Nat → CrawlState → CrawlState
  | 0, s => s
  | n + 1, s =>
    if s.queue.isEmpty || cfg.maxPages ≤ s.stats.pagesVisited then s
    else extSteps site cfg baseHostname startUrl n (extStep site cfg baseHostname startUrl s)

/-- One interactive element as handed to `generateElementKeyword`: the
attribute values the extraction script collected (empty string models an
absent attribute, matching JS truthiness). -/
structure ElementData where
  type : String
  ariaLabel : String
  placeholder : String
  alt : String
  name : String
  id : String
  title : String
  text : String
  contextHint : String
deriving DecidableEq, Repr

/-- The action-verb vocabulary scanned by `generateElementKeyword`. -/
def actionWords : List String :=
  ["create", "add", "edit", "update", "delete", "remove", "submit",
   "save", "cancel", "close", "open", "search", "filter", "select",
   "upload", "download", "validate", "verify", "run", "execute", "apply"]

/-- The keyword record `generateElementKeyword` returns. -/
structure ElementKeywords where
  primary : String
  type : String
  fullKeyword : String
deriving DecidableEq, Repr

/-- Normalization applied to a chosen keyword:
`keyword.toLowerCase().replace(/[^a-z0-9]/g, '_').substring(0, 50)`. -/
def cleanKeyword (s : String) : String :=
  ((slugChars s).take 50).asString

/-- `generateElementKeyword(element)` of the extension variant: pick the
first truthy attribute among `ariaLabel`, `placeholder`, `alt`, `name`,
`id`, and trimmed `text`, falling back to `<type>_<random-token>` (the
token is threaded as `tok`); scan for the first contained action verb and
prefix it to the type; suffix `_in_<contextHint>` when a context hint
exists; normalize the keyword and build the 60-character-capped
`fullKeyword`. -/
def generateElementKeyword (e : ElementData) (tok : String) : ElementKeywords :=
  let keyword :=
    if e.ariaLabel ≠ "" then e.ariaLabel
    else if e.placeholder ≠ "" then e.placeholder
    else if e.alt ≠ "" then e.alt
    else if e.name ≠ "" then e.name
    else if e.id ≠ "" then e.id
    else if e.text ≠ "" ∧ trimStr e.text ≠ "" then trimStr e.text
    else e.type ++ "_" ++ tok
  let actionHint := ((actionWords.find? (fun a => substrB a (lowerStr keyword))).getD "")
  let ty := if actionHint ≠ "" then actionHint ++ "_" ++ e.type else e.type
  let ty := if e.contextHint ≠ "" then ty ++ "_in_" ++ e.contextHint else ty
  let keyword := cleanKeyword keyword
  { primary := keyword, type := ty, fullKeyword := takeStr (ty ++ "_" ++ keyword) 60 }

/-- The keyword assignment `processPageData` performs over a page's
interactive elements: each element's keywords are computed independently
by `generateElementKeyword`, with no state shared between elements (each
paired with its own random token). -/
def extensionPageKeywords (els : List (ElementData × String)) : List String :=
  els.map (fun p => (generateElementKeyword p.1 p.2).primary)

/-- One element as seen by the proxy-server page script's
`generateKeyword`: the seven attributes it reads, plus the tag name used
by the fallback. -/
structure ProxyElement where
  ariaLabel : String
  placeholder : String
  alt : String
  name : String
  id : String
  title : String
  innerText : String
  tag : String
deriving DecidableEq, Repr

/-- Whitespace-run collapsing, modelling `replace(/\s+/g, ' ')`; the flag
records whether the previous character was whitespace. -/
def collapseWsAux : Bool → List Char → List Char
  | _, [] => []
  | prevWs, c :: rest =>
    if c.isWhitespace then
      (if prevWs then [] else [' ']) ++ collapseWsAux true rest
    else c :: collapseWsAux false rest

/-- The raw-keyword cleanup of the proxy variant:
`.toLowerCase().trim().replace(/\s+/g, ' ').replace(/[^a-z0-9 ]/gi, '')`. -/
def proxyCleanRaw (s : String) : String :=
  ((collapseWsAux false (trimStr (lowerStr s)).toList).filter
    (fun c => c.isLower || c.isDigit || c == ' ')).asString

/-- The attribute-priority chain of the proxy variant's `generateKeyword`
(`aria-label`, `placeholder`, `alt`, `name`, `id`, `title`, `innerText`),
cleaned up. -/
def proxyRawKeyword (e : ProxyElement) : String :=
  proxyCleanRaw
    (if e.ariaLabel ≠ "" then e.ariaLabel
     else if e.placeholder ≠ "" then e.placeholder
     else if e.alt ≠ "" then e.alt
     else if e.name ≠ "" then e.name
     else if e.id ≠ "" then e.id
     else if e.title ≠ "" then e.title
     else if e.innerText ≠ "" then e.innerText
     else "")

/-- The proxy variant's disambiguation loop body: try `keyword-count`,
`keyword-(count+1)`, … until a candidate is not in the keyword set.  The
fuel is an upper bound on the iterations the JS `while` loop can make
before escaping the (finite) set; the fuel-exhausted branch returns the
current candidate and is proven unreachable for the fuel `uniquify`
supplies. -/
def uniquifyGo (set : List String) (keyword : String) : Nat → Nat → String
  | 0, count => keyword ++ "-" ++ Nat.repr count
  | fuel + 1, count =>
    let cand := keyword ++ "-" ++ Nat.repr count
    if cand ∈ set then uniquifyGo set keyword fuel (count + 1) else cand

/-- The proxy variant's `while (keywordSet.has(uniqueKeyword))` loop:
keep the keyword itself when fresh, else the first `keyword-<count>`
candidate (count starting at 1) outside the set. -/
def uniquify (set : List String) (keyword : String) : String :=
  if keyword ∈ set then uniquifyGo set keyword (set.length + 1) 1 else keyword

/-- `generateKeyword(el)` of the proxy variant: clean the attribute chain,
fall back to `<tag>-<random-token>` when everything was empty, make the
result unique against the page-pass keyword set, and add it to the set. -/
def proxyGenerateKeyword (set : List String) (e : ProxyElement) (tok : String) :
    String × List String :=
  let raw := proxyRawKeyword e
  let keyword := if raw = "" then e.tag ++ "-" ++ tok else raw
  let u := uniquify set keyword
  (u, set ++ [u])

/-- The proxy page pass over all elements (`document.querySelectorAll('*')
.forEach`), threading the per-pass keyword set; returns the emitted
keywords and the final set. -/
def proxyPageKeywordsGo (set : List String) (acc : List String) :
    List (ProxyElement × String) → List String × List String
  | [] => (acc, set)
  | (e, tok) :: rest =>
    let r := proxyGenerateKeyword set e tok
    proxyPageKeywordsGo r.2 (acc ++ [r.1]) rest

/-- The keywords one proxy page pass assigns, in document order. -/
def proxyPageKeywords (els : List (ProxyElement × String)) : List String :=
  (proxyPageKeywordsGo [] [] els).1

/-- The danger patterns of the page-inspection script's button-safety
regex `/(logout|log out|sign out|delete|remove)/i`. -/
def dangerWords : List String :=
  ["logout", "log out", "sign out", "delete", "remove"]

/-- `isSafeButton` computed for each extracted button: the lowercased
button text matches none of the danger patterns (a regex alternation of
literals tests substring containment of some alternative). -/
def isSafeButton (text : String) : Bool :=
  ! dangerWords.any (fun w => substrB w (lowerStr text))

/-- The running example origin `https://example.com/`. -/
def exHome : URLParts :=
  { protocol := "https:", hostname := "example.com", pathname := "/", search := "", hash := "" }

/-- The page `https://example.com/about`. -/
def exAbout : URLParts :=
  { protocol := "https:", hostname := "example.com", pathname := "/about", search := "", hash := "" }

/-- The page `https://example.com/a`. -/
def exA : URLParts :=
  { protocol := "https:", hostname := "example.com", pathname := "/a", search := "", hash := "" }

/-- The numeric and boolean values of `DEFAULT_CONFIG`. -/
def cfgDefault : CrawlConfig :=
  { maxDepth := 3, maxPages := 100, maxLinksPerPage := 50,
    ignoreParams := true, followExternalLinks := false, captureButtonInteractions := true }

/-- The default configuration overridden with `maxDepth = 0`. -/
def cfgDepth0 : CrawlConfig :=
  { cfgDefault with maxDepth := 0 }

/-- The default configuration overridden with `maxPages = 1` (and a small
`maxLinksPerPage` to keep the crawl bound small). -/
def cfgOnePage : CrawlConfig :=
  { cfgDefault with maxPages := 1, maxLinksPerPage := 2 }

/-- The default configuration with `followExternalLinks = true`. -/
def cfgExternal : CrawlConfig :=
  { cfgDefault with followExternalLinks := true }

/-- A crawler state with nothing visited, an empty queue and empty stats
(the state right after the scheduler popped the only queue entry). -/
def emptyState : CrawlState :=
  { graph := { nodes := [], edges := [] }, visited := [], queue := [],
    stats := { pagesVisited := 0, linksFound := 0, errors := [] } }

/-- A home page carrying one relative link to `/about`. -/
def pageHomeAbout : Page :=
  { title := "Home", anchors := [{ href := some (.rel "/about" "" ""), text := "About", selector := "a" }],
    buttons := [] }

/-- A site serving only the home page (the `/about` target is never
served, which is irrelevant while it is never visited). -/
def siteHomeAbout : SitePages :=
  [("https://example.com/", pageHomeAbout)]

/-- A home page carrying two anchors to the same target `/a`. -/
def pageTwoA : Page :=
  { title := "Home",
    anchors := [{ href := some (.rel "/a" "" ""), text := "A1", selector := "a" },
                { href := some (.rel "/a" "" ""), text := "A2", selector := "a" }],
    buttons := [] }

/-- A site serving the home page with two links to `/a`, while `/a` itself
always times out. -/
def siteTwoA : SitePages :=
  [("https://example.com/", pageTwoA)]

/-- An element whose only non-empty attribute is `title`. -/
def eTitled : ElementData :=
  { type := "button", ariaLabel := "", placeholder := "", alt := "", name := "",
    id := "", title := "Hello", text := "", contextHint := "" }

/-- A text input identified only by its `name` attribute. -/
def eUser : ElementData :=
  { type := "input", ariaLabel := "", placeholder := "", alt := "", name := "username",
    id := "", title := "", text := "", contextHint := "" }

/-- A proxy-pass element whose raw keyword is `a`. -/
def pA : ProxyElement :=
  { ariaLabel := "", placeholder := "", alt := "", name := "a", id := "",
    title := "", innerText := "", tag := "input" }

/-- A proxy-pass element with no attributes at all and tag `a`, so that
with random token `1` its fallback keyword is `a-1`. -/
def pFallbackA : ProxyElement :=
  { ariaLabel := "", placeholder := "", alt := "", name := "", id := "",
    title := "", innerText := "", tag := "a" }

/-- A URL carrying both a query string and a fragment. -/
def exFrag : URLParts :=
  { protocol := "https:", hostname := "example.com", pathname := "/p",
    search := "?q=1", hash := "#frag" }

/-- Decimal value of a most-significant-first digit character list. -/
def digitsVal (l : List Char) : Nat :=
  l.foldl (fun acc c => acc * 10 + (c.toNat - 48)) 0

theorem digitChar_val : ∀ d : Nat, d < 10 → (Nat.digitChar d).toNat - 48 = d := by
  decide

theorem toDigitsCore_append (fuel : Nat) : ∀ (n : Nat) (acc : List Char),
    Nat.toDigitsCore 10 fuel n acc = Nat.toDigitsCore 10 fuel n [] ++ acc := by
  induction fuel with
  | zero => intro n acc; simp [Nat.toDigitsCore]
  | succ f ih =>
    intro n acc
    simp only [Nat.toDigitsCore]
    by_cases h : n / 10 = 0
    · simp [h]
    · simp only [h, if_false, if_neg h]
      rw [ih (n / 10) (Nat.digitChar (n % 10) :: acc), ih (n / 10) [Nat.digitChar (n % 10)]]
      simp

theorem toDigitsCore_val (fuel : Nat) : ∀ n : Nat, n < fuel →
    digitsVal (Nat.toDigitsCore 10 fuel n []) = n := by
  induction fuel with
  | zero => intro n h; omega
  | succ f ih =>
    intro n h
    simp only [Nat.toDigitsCore]
    by_cases h0 : n / 10 = 0
    · have hn : n < 10 := by omega
      have hmod : n % 10 = n := by omega
      simp [h0, digitsVal, hmod, digitChar_val n hn]
    · rw [if_neg h0, toDigitsCore_append]
      have hval : ∀ (l : List Char) (d : Char),
          digitsVal (l ++ [d]) = digitsVal l * 10 + (d.toNat - 48) := by
        intro l d; simp [digitsVal, List.foldl_append]
      rw [hval, ih (n / 10) (by omega), digitChar_val (n % 10) (by omega)]
      omega

theorem nat_repr_injective : Function.Injective Nat.repr := by
  intro m n h
  have hd : Nat.toDigits 10 m = Nat.toDigits 10 n := by
    have h2 := congrArg String.data h
    simpa [Nat.repr, List.asString] using h2
  have hm := toDigitsCore_val (m + 1) m (by omega)
  have hn := toDigitsCore_val (n + 1) n (by omega)
  simp only [Nat.toDigits] at hd
  rw [← hm, ← hn, hd]

theorem append_repr_injective (kw : String) :
    Function.Injective (fun i => kw ++ "-" ++ Nat.repr i) := by
  intro i j h
  apply nat_repr_injective
  have h2 := congrArg String.data h
  simp only [String.data_append] at h2
  have h3 := List.append_cancel_left h2
  exact String.ext h3

theorem freshCand_exists (set : List String) (kw : String) :
    ∃ i, 1 ≤ i ∧ i < set.length + 2 ∧ (kw ++ "-" ++ Nat.repr i) ∉ set := by
  by_contra hc
  push_neg at hc
  have hnd : ((List.range (set.length + 1)).map (fun k => kw ++ "-" ++ Nat.repr (k + 1))).Nodup := by
    refine List.Nodup.map ?_ (List.nodup_range _)
    intro a b hab
    have h2 := append_repr_injective kw hab
    omega
  have hsub : ((List.range (set.length + 1)).map (fun k => kw ++ "-" ++ Nat.repr (k + 1))) ⊆ set := by
    intro x hx
    simp only [List.mem_map, List.mem_range] at hx
    obtain ⟨k, hk, rfl⟩ := hx
    exact hc (k + 1) (by omega) (by omega)
  have hlen := (List.subperm_of_subset hnd hsub).length_le
  simp only [List.length_map, List.length_range] at hlen
  omega

theorem uniquifyGo_not_mem (set : List String) (kw : String) :
    ∀ (fuel count : Nat),
      (∃ i, count ≤ i ∧ i < count + fuel ∧ (kw ++ "-" ++ Nat.repr i) ∉ set) →
      uniquifyGo set kw fuel count ∉ set := by
  intro fuel
  induction fuel with
  | zero =>
    intro count h
    obtain ⟨i, h1, h2, _⟩ := h
    omega
  | succ f ih =>
    intro count h
    simp only [uniquifyGo]
    by_cases hc : (kw ++ "-" ++ Nat.repr count) ∈ set
    · rw [if_pos hc]
      apply ih
      obtain ⟨i, h1, h2, h3⟩ := h
      have hne : i ≠ count := fun he => h3 (by rw [he]; exact hc)
      exact ⟨i, by omega, by omega, h3⟩
    · rw [if_neg hc]
      exact hc

theorem uniquify_not_mem (set : List String) (kw : String) :
    uniquify set kw ∉ set := by
  simp only [uniquify]
  by_cases h : kw ∈ set
  · rw [if_pos h]
    apply uniquifyGo_not_mem
    obtain ⟨i, h1, h2, h3⟩ := freshCand_exists set kw
    exact ⟨i, h1, by omega, h3⟩
  · rw [if_neg h]
    exact h

theorem proxyPageKeywordsGo_nodup :
    ∀ (els : List (ProxyElement × String)) (set acc : List String),
      acc.Nodup → (∀ a ∈ acc, a ∈ set) →
      (proxyPageKeywordsGo set acc els).1.Nodup := by
  intro els
  induction els with
  | nil =>
    intro set acc h1 _
    simpa [proxyPageKeywordsGo] using h1
  | cons p rest ih =>
    intro set acc h1 h2
    have hp := uniquify_not_mem set
      (if proxyRawKeyword p.1 = "" then p.1.tag ++ "-" ++ p.2 else proxyRawKeyword p.1)
    simp only [proxyPageKeywordsGo, proxyGenerateKeyword]
    apply ih
    · refine List.Nodup.append h1 (List.nodup_singleton _) ?_
      intro a ha hb
      simp only [List.mem_singleton] at hb
      exact hp (hb ▸ h2 a ha)
    · intro a ha
      rcases List.mem_append.mp ha with h | h
      · exact List.mem_append_left _ (h2 a h)
      · exact List.mem_append_right _ h

theorem shouldCrawl_abs_errors (cfg : CrawlConfig) (b : String) (v : List String)
    (p : URLParts) (e : List String) :
    (shouldCrawl cfg b v (.abs p) e).2 = e := by
  simp only [shouldCrawl]
  split_ifs
  all_goals rfl

theorem shouldCrawl_true_not_visited (cfg : CrawlConfig) (b : String) (v : List String)
    (p : URLParts) (e : List String)
    (h : (shouldCrawl cfg b v (.abs p) e).1 = true) : urlToString p ∉ v := by
  simp only [shouldCrawl] at h
  split_ifs at h with h1 h2 h3 h4
  all_goals simp_all

theorem processItem_queue_len (cfg : CrawlConfig) (b : String) (v : List String)
    (u : URLParts) (nid pt : String) (d : Nat)
    (acc : SiteGraph × List (URLParts × Nat) × List String) (item : LinkItem) :
    ((processItem cfg b v u nid pt d acc item).2.1).length ≤
      acc.2.1.length + (if item.isLink then 1 else 0) := by
  match item with
  | .link href text sel =>
    rcases hn : (normalizeUrl cfg href u acc.2.2).1 with _ | n
    · simp [processItem, LinkItem.isLink, hn]
    · by_cases hs : (shouldCrawl cfg b v (.abs n) (normalizeUrl cfg href u acc.2.2).2).1 = true
      · simp [processItem, LinkItem.isLink, hn, hs]
      · simp [processItem, LinkItem.isLink, hn, hs]
  | .button text sel => simp [processItem, LinkItem.isLink]

theorem foldl_processItem_queue_len (cfg : CrawlConfig) (b : String) (v : List String)
    (u : URLParts) (nid pt : String) (d : Nat) :
    ∀ (items : List LinkItem) (acc : SiteGraph × List (URLParts × Nat) × List String),
      ((items.foldl (processItem cfg b v u nid pt d) acc).2.1).length ≤
        acc.2.1.length + items.countP LinkItem.isLink := by
  intro items
  induction items with
  | nil => intro acc; simp
  | cons it rest ih =>
    intro acc
    simp only [List.foldl_cons, List.countP_cons]
    have h1 := processItem_queue_len cfg b v u nid pt d acc it
    have h2 := ih (processItem cfg b v u nid pt d acc it)
    by_cases hl : it.isLink = true
    · simp only [hl, if_true] at h1 ⊢
      omega
    · simp only [hl, if_false] at h1 ⊢
      omega

theorem extractLinks_countP_le (cfg : CrawlConfig) (page : Page) :
    (extractLinks cfg page).countP LinkItem.isLink ≤ cfg.maxLinksPerPage := by
  simp only [extractLinks, List.countP_append]
  have h2 : (page.buttons.map (fun b => LinkItem.button b.text b.selector)).countP
      LinkItem.isLink = 0 := by
    rw [List.countP_eq_zero]
    intro a ha
    simp only [List.mem_map] at ha
    obtain ⟨bt, _, rfl⟩ := ha
    simp [LinkItem.isLink]
  rw [h2, Nat.add_zero]
  calc ((page.anchors.take cfg.maxLinksPerPage).filterMap
          (fun a => a.href.map (fun h => LinkItem.link h a.text a.selector))).countP
            LinkItem.isLink
      ≤ ((page.anchors.take cfg.maxLinksPerPage).filterMap
          (fun a => a.href.map (fun h => LinkItem.link h a.text a.selector))).length :=
        List.countP_le_length _
    _ ≤ (page.anchors.take cfg.maxLinksPerPage).length := List.length_filterMap_le _ _
    _ ≤ cfg.maxLinksPerPage := List.length_take_le _ _

theorem crawlPage_cases (site : SitePages) (cfg : CrawlConfig) (b : String)
    (s : CrawlState) (u : URLParts) (d : Nat) :
    crawlPage site cfg b s u d = s ∨
    ((crawlPage site cfg b s u d).stats.pagesVisited = s.stats.pagesVisited ∧
      (crawlPage site cfg b s u d).queue = s.queue) ∨
    ((crawlPage site cfg b s u d).stats.pagesVisited = s.stats.pagesVisited + 1 ∧
      (crawlPage site cfg b s u d).queue.length ≤ s.queue.length + cfg.maxLinksPerPage) := by
  by_cases hg : ¬ (shouldCrawl cfg b s.visited (.abs u) s.stats.errors).1
      ∨ d > cfg.maxDepth ∨ s.stats.pagesVisited ≥ cfg.maxPages
  · left
    simp only [crawlPage]
    rw [if_pos hg]
  · rcases hl : siteLookup site u with _ | page
    · right; left
      constructor
      · simp only [crawlPage]
        rw [if_neg hg]
        simp [hl]
      · simp only [crawlPage]
        rw [if_neg hg]
        simp [hl]
    · right; right
      have hb := foldl_processItem_queue_len cfg b (s.visited ++ [urlToString u]) u
        (addNode s.graph u page.title).2 page.title d (extractLinks cfg page)
        ((addNode s.graph u page.title).1, s.queue, s.stats.errors)
      simp only at hb
      have hc := extractLinks_countP_le cfg page
      constructor
      · simp only [crawlPage]
        rw [if_neg hg]
        simp [hl]
      · simp only [crawlPage]
        rw [if_neg hg]
        simp only [hl]
        omega

theorem measure_lt_visit (mp pv L q r : Nat) (hpv : pv < mp) (hq : q ≤ r + L) :
    (mp - (pv + 1)) * (L + 1) + q < (mp - pv) * (L + 1) + (r + 1) := by
  have h1 : mp - pv = (mp - (pv + 1)) + 1 := by omega
  rw [h1, Nat.succ_mul]
  omega

theorem stepOnce_measure_lt (site : SitePages) (cfg : CrawlConfig) (b : String)
    (s : CrawlState) (h : terminalState cfg s = false) :
    crawlMeasure cfg (stepOnce site cfg b s) < crawlMeasure cfg s := by
  rcases hq : s.queue with _ | ⟨ud, rest⟩
  · rw [terminalState, hq] at h
    simp at h
  · obtain ⟨u, d⟩ := ud
    have hpv : s.stats.pagesVisited < cfg.maxPages := by
      rw [terminalState] at h
      simp only [Bool.or_eq_false_iff, decide_eq_false_iff_not, not_le] at h
      exact h.2
    have hrw : stepOnce site cfg b s = crawlPage site cfg b { s with queue := rest } u d := by
      simp [stepOnce, hq]
    rw [hrw]
    rcases crawlPage_cases site cfg b { s with queue := rest } u d with hc | ⟨h1, h2⟩ | ⟨h1, h2⟩
    · rw [hc]
      simp only [crawlMeasure, hq]
      simp only [List.length_cons]
      omega
    · simp only [crawlMeasure, hq, h1, h2]
      simp only [List.length_cons]
      omega
    · simp only [crawlMeasure, hq, h1]
      simp only [List.length_cons]
      have h2' : (crawlPage site cfg b { s with queue := rest } u d).queue.length ≤
          rest.length + cfg.maxLinksPerPage := h2
      exact measure_lt_visit cfg.maxPages s.stats.pagesVisited cfg.maxLinksPerPage _ _ hpv h2'

theorem crawlSteps_terminal (site : SitePages) (cfg : CrawlConfig) (b : String) :
    ∀ (n : Nat) (s : CrawlState), crawlMeasure cfg s < n →
      terminalState cfg (crawlSteps site cfg b n s) = true := by
  intro n
  induction n with
  | zero => intro s h; omega
  | succ m ih =>
    intro s h
    rcases ht : terminalState cfg s with _ | _
    · have hlt := stepOnce_measure_lt site cfg b s ht
      simp only [crawlSteps, ht, Bool.false_eq_true, if_false]
      exact ih (stepOnce site cfg b s) (by omega)
    · simp only [crawlSteps, ht, if_true]

theorem crawlPage_pagesVisited_le (site : SitePages) (cfg : CrawlConfig) (b : String)
    (s : CrawlState) (u : URLParts) (d : Nat) :
    (crawlPage site cfg b s u d).stats.pagesVisited ≤ s.stats.pagesVisited + 1 := by
  rcases crawlPage_cases site cfg b s u d with hc | ⟨h1, _⟩ | ⟨h1, _⟩
  · rw [hc]; omega
  · rw [h1]; omega
  · rw [h1]

theorem crawlSteps_pagesVisited_le (site : SitePages) (cfg : CrawlConfig) (b : String) :
    ∀ (n : Nat) (s : CrawlState), s.stats.pagesVisited ≤ cfg.maxPages →
      (crawlSteps site cfg b n s).stats.pagesVisited ≤ cfg.maxPages := by
  intro n
  induction n with
  | zero => intro s h; exact h
  | succ m ih =>
    intro s h
    rcases ht : terminalState cfg s with _ | _
    · simp only [crawlSteps, ht, Bool.false_eq_true, if_false]
      apply ih
      have hpv : s.stats.pagesVisited < cfg.maxPages := by
        rw [terminalState] at ht
        simp only [Bool.or_eq_false_iff, decide_eq_false_iff_not, not_le] at ht
        exact ht.2
      rcases hq : s.queue with _ | ⟨ud, rest⟩
      · rw [terminalState, hq] at ht
        simp at ht
      · obtain ⟨u, d⟩ := ud
        have hrw : stepOnce site cfg b s = crawlPage site cfg b { s with queue := rest } u d := by
          simp [stepOnce, hq]
        rw [hrw]
        have := crawlPage_pagesVisited_le site cfg b { s with queue := rest } u d
        simp only at this
        omega
    · simp only [crawlSteps, ht, if_true]
      exact h

/-- C4 (amended): in the puppeteer `SiteCrawler`, every `crawlPage` call
either changes nothing at all, or processes a URL that was not yet in the
visited set and is in the visited set afterwards — the URL is marked
visited before navigation, even when navigation subsequently fails, so
the navigate-and-extract step runs at most once per URL per crawl.  (The
extension variant violates this; see the counterexample.) -/
theorem crawlPage_visited_before_navigation (site : SitePages) (cfg : CrawlConfig) (b : String)
    (s : CrawlState) (u : URLParts) (d : Nat) :
    crawlPage site cfg b s u d = s ∨
    (urlToString u ∉ s.visited ∧ urlToString u ∈ (crawlPage site cfg b s u d).visited) := by
  by_cases hg : ¬ (shouldCrawl cfg b s.visited (.abs u) s.stats.errors).1
      ∨ d > cfg.maxDepth ∨ s.stats.pagesVisited ≥ cfg.maxPages
  · left
    simp only [crawlPage]
    rw [if_pos hg]
  · right
    have hg2 := hg
    push_neg at hg2
    constructor
    · exact shouldCrawl_true_not_visited cfg b s.visited u s.stats.errors hg2.1
    · have hv : (crawlPage site cfg b s u d).visited = s.visited ++ [urlToString u] := by
        simp only [crawlPage]
        rw [if_neg hg]
        cases hl : siteLookup site u with
        | none => simp [hl]
        | some page => simp [hl]
      rw [hv]
      simp

theorem substrAux_iff (nl : List Char) : ∀ hl : List Char, substrAux nl hl = true ↔ nl <:+: hl := by
  intro hl
  induction hl with
  | nil =>
    simp only [substrAux, List.isEmpty_iff]
    constructor
    · intro h; rw [h]
    · intro h; exact List.eq_nil_of_infix_nil h
  | cons c rest ih =>
    simp only [substrAux, Bool.or_eq_true, ih, List.isPrefixOf_iff_prefix]
    exact (List.infix_cons_iff).symm

theorem substrB_iff (needle hay : String) :
    substrB needle hay = true ↔ needle.toList <:+: hay.toList := by
  exact substrAux_iff needle.toList hay.toList

/-- C5 (amended): `generateElementKeyword` derives the keyword by taking
the first non-empty attribute in the order aria-label, placeholder, alt,
name, id, trimmed visible text — the `title` attribute is never consulted
— falling back to `<type>_<random-token>` when all six are empty, and then
normalizing (lowercase, non-[a-z0-9] replaced by `_`, truncated to 50
characters).  Changing the element's `title` never changes the result. -/
theorem generateElementKeyword_priority (e : ElementData) (tok : String) :
    ((generateElementKeyword e tok).primary =
      cleanKeyword (([e.ariaLabel, e.placeholder, e.alt, e.name, e.id,
          trimStr e.text].find? (fun s => s != "")).getD (e.type ++ "_" ++ tok))) ∧
    (∀ t : String, generateElementKeyword { e with title := t } tok =
      generateElementKeyword e tok) := by
  constructor
  · have htext : e.text = "" → trimStr e.text = "" := by
      intro h
      rw [h]
      rfl
    simp only [generateElementKeyword]
    by_cases h1 : e.ariaLabel = "" <;> by_cases h2 : e.placeholder = "" <;>
      by_cases h3 : e.alt = "" <;> by_cases h4 : e.name = "" <;>
      by_cases h5 : e.id = "" <;> by_cases h6 : e.text = "" <;>
      by_cases h7 : trimStr e.text = "" <;>
      simp_all [List.find?_cons_of_pos, List.find?_cons_of_neg]
  · intro t
    rfl

/-- C7 (amended): for a URL that parses, `shouldCrawl` returns true
exactly when the protocol *starts with* `http` (so a scheme such as
`httpx` also passes), the host matches the crawl origin or
`followExternalLinks` is set, the URL is not in the visited set, and the
path ends in no denylisted file extension — leaving `stats.errors`
untouched; for a URL that fails to parse it returns false *and appends an
entry to `stats.errors`* (so it is not free of side effects on the error
list). -/
theorem shouldCrawl_characterization (cfg : CrawlConfig) (b : String)
    (visited errs : List String) :
    (∀ p : URLParts, shouldCrawl cfg b visited (.abs p) errs =
      ((startsWithStr p.protocol "http" &&
        (cfg.followExternalLinks || p.hostname == b) &&
        !(decide (urlToString p ∈ visited)) &&
        !(fileExtensions.any (fun ext => endsWithStr (lowerStr p.pathname) ext))), errs)) ∧
    (∀ str : String, shouldCrawl cfg b visited (.malformed str) errs =
      (false, errs ++ ["Error checking URL " ++ str])) := by
  constructor
  · intro p
    simp only [shouldCrawl]
    split_ifs with h1 h2 h3 h4
    all_goals simp_all
    rcases hfe : cfg.followExternalLinks with _ | _
    · exact Or.inr (h2 hfe)
    · exact Or.inl rfl
  · intro str
    rfl

/-- C8: `normalizeUrl` resolves the input against the base; on success it
always strips the fragment and strips the query string exactly when
`ignoreParams` is set, leaving the error list unchanged; on a malformed
URL it returns `none` and appends exactly one entry to the error list —
and being a total function it never throws. -/
theorem normalizeUrl_spec (cfg : CrawlConfig) (url : RawUrl) (base : URLParts)
    (errs : List String) :
    (∀ a : URLParts, resolveURL url base = some a →
      normalizeUrl cfg url base errs =
        (some { a with hash := "", search := if cfg.ignoreParams then "" else a.search }, errs)) ∧
    (resolveURL url base = none →
      normalizeUrl cfg url base errs = (none, errs ++ [normalizeErrorMsg url])) := by
  constructor
  · intro a ha
    simp [normalizeUrl, ha]
  · intro ha
    simp [normalizeUrl, ha]

/-- C9 (amended): `isSafeButton` is false exactly when the button text
contains, case-insensitively, one of the five danger patterns `logout`,
`log out`, `sign out`, `delete`, `remove` (the claim's list omitted
`log out`); in particular "Delete Account" is unsafe and "Save Changes"
is safe. -/
theorem isSafeButton_characterization :
    (∀ text : String, isSafeButton text = false ↔
      ∃ w ∈ dangerWords, w.toList <:+: (lowerStr text).toList) ∧
    isSafeButton "Delete Account" = false ∧ isSafeButton "Save Changes" = true := by
  refine ⟨?_, by decide, by decide⟩
  intro text
  simp only [isSafeButton, Bool.not_eq_false', List.any_eq_true, substrB_iff]

/-- C1 counterexample: with `maxDepth = 0`, processing the start page at
depth 0 (which equals `maxDepth`) pushes its discovered link onto the URL
queue at depth 1 — so a link discovered on a page processed at depth
`maxDepth` *is* enqueued: the puppeteer `crawlPage` enqueues at
`depth + 1` unconditionally. -/
theorem enqueue_at_maxDepth_cex :
    cfgDepth0.maxDepth = 0 ∧
    (crawlPage siteHomeAbout cfgDepth0 "example.com" emptyState exHome 0).queue =
      [(exAbout, 1)] := by
  exact ⟨rfl, by decide⟩

/-- C1 (amended): in the puppeteer `SiteCrawler`, discovered links are
enqueued at `depth + 1` unconditionally; the `maxDepth` bound is enforced
at processing time instead — a dequeued entry whose depth exceeds
`maxDepth` is skipped by `crawlPage` without navigating or changing any
state, so no page beyond `maxDepth` is ever visited. -/
theorem crawlPage_skips_beyond_maxDepth (site : SitePages) (cfg : CrawlConfig)
    (b : String) (s : CrawlState) (u : URLParts) (d : Nat) (h : cfg.maxDepth < d) :
    crawlPage site cfg b s u d = s := by
  simp only [crawlPage]
  rw [if_pos (Or.inr (Or.inl h))]

/-- Witness for the amended C1 theorem at a concrete input: the entry
`(exAbout, 1)` enqueued beyond `maxDepth = 0` is dropped unprocessed. -/
theorem crawlPage_skips_beyond_maxDepth_wit :
    cfgDepth0.maxDepth < 1 ∧
    crawlPage siteHomeAbout cfgDepth0 "example.com" emptyState exAbout 1 = emptyState :=
  ⟨by decide,
   crawlPage_skips_beyond_maxDepth siteHomeAbout cfgDepth0 "example.com" emptyState exAbout 1
     (by decide)⟩

/-- C2: every crawl run terminates: running the scheduler loop for its
measure-many iterations reaches a state in which the loop condition is
false (queue exhausted or page budget reached), and `crawl` returns that
final state's graph together with its stats, which carry the accumulated
error list. -/
theorem crawl_terminates_and_returns (site : SitePages) (cfg : CrawlConfig)
    (b : String) (startUrl : URLParts) :
    terminalState cfg (crawlFinal site cfg b startUrl) = true ∧
    crawl site cfg b startUrl =
      ((crawlFinal site cfg b startUrl).graph, (crawlFinal site cfg b startUrl).stats) := by
  constructor
  · exact crawlSteps_terminal site cfg b _ _ (Nat.lt_succ_self _)
  · rfl

/-- C3: on every reachable scheduler state of a crawl started from the
initial state, `stats.pagesVisited` never exceeds `maxPages`: the loop
stops dequeuing for processing once the budget is reached, and each
processed page increments the counter by at most one. -/
theorem pagesVisited_never_exceeds_maxPages (site : SitePages) (cfg : CrawlConfig)
    (b : String) (startUrl : URLParts) (n : Nat) :
    (crawlSteps site cfg b n (initState startUrl)).stats.pagesVisited ≤ cfg.maxPages :=
  crawlSteps_pagesVisited_le site cfg b n (initState startUrl) (Nat.zero_le _)

/-- C4 counterexample: in the extension variant the URL enters the
visited set only inside `processPageData`, after extraction succeeded —
not before navigation.  With two anchors to `/a` discovered on the home
page and `/a` timing out, the crawl navigates to `/a` twice (it logs two
timeout errors), and `/a` never enters the visited set. -/
theorem visited_marked_after_extraction_cex :
    (extSteps siteTwoA cfgDefault "example.com" exHome 4 (initState exHome)).stats.errors =
      [extTimeoutMsg exA, extTimeoutMsg exA] ∧
    urlToString exA ∉
      (extSteps siteTwoA cfgDefault "example.com" exHome 4 (initState exHome)).visited := by
  exact ⟨by decide, by decide⟩

/-- C5 counterexample: an element whose only non-empty attribute is
`title` gets the synthesized `<type>_<token>` keyword, not the normalized
title — `generateElementKeyword` never consults `title`, contradicting
the claimed seven-attribute priority order. -/
theorem keyword_ignores_title_cex :
    eTitled.title = "Hello" ∧
    (generateElementKeyword eTitled "x9z").primary = "button_x9z" ∧
    (generateElementKeyword eTitled "x9z").primary ≠ "hello" := by
  exact ⟨rfl, by decide, by decide⟩

/-- C6 counterexample: the extension's per-page pass assigns duplicate
keywords to duplicate elements (no disambiguation counter exists in
`generateElementKeyword`); and in the proxy pass, when a raw keyword
collides with an already-suffixed keyword, the second occurrence of `a`
receives `a-2`, not the claimed `-1`. -/
theorem page_keywords_duplicate_cex :
    extensionPageKeywords [(eUser, "t1"), (eUser, "t2")] = ["username", "username"] ∧
    ¬ (extensionPageKeywords [(eUser, "t1"), (eUser, "t2")]).Nodup ∧
    proxyPageKeywords [(pA, "x"), (pFallbackA, "1"), (pA, "y")] = ["a", "a-1", "a-2"] := by
  exact ⟨by decide, by decide, by decide⟩

/-- C6 (amended): keyword uniqueness within a single page's extraction
pass is enforced only by the proxy-server's `generateKeyword`: each
element receives its raw keyword suffixed with the first dash-count not
yet in the pass's keyword set, so the final keywords of one pass are
pairwise distinct (the extension's `generateElementKeyword` performs no
such disambiguation, and no uniqueness holds across pages). -/
theorem proxyPageKeywords_nodup (els : List (ProxyElement × String)) :
    (proxyPageKeywords els).Nodup :=
  proxyPageKeywordsGo_nodup els [] [] List.nodup_nil
    (fun a ha => absurd ha (List.not_mem_nil a))

/-- C7 counterexample: `shouldCrawl` is not free of side effects on
`stats.errors` — a URL that fails to parse appends an error entry — and a
URL whose scheme is `httpx` (not http or https) still passes the
`startsWith('http')` protocol check, returning true when
`followExternalLinks` is set. -/
theorem shouldCrawl_side_effect_cex :
    (shouldCrawl cfgDefault "example.com" [] (.malformed "http//bad") []).2 =
      ["Error checking URL http//bad"] ∧
    (shouldCrawl cfgExternal "example.com" []
      (.abs { protocol := "httpx:", hostname := "other.com", pathname := "/",
              search := "", hash := "" }) []).1 = true := by
  exact ⟨rfl, by decide⟩

/-- Witness for the C8 theorem at concrete inputs: a URL with query and
fragment is normalized with the fragment stripped (and the query stripped
under the default `ignoreParams`), and a malformed URL yields `none` plus
one error entry. -/
theorem normalizeUrl_spec_wit :
    normalizeUrl cfgDefault (.abs exFrag) exHome [] =
      (some { exFrag with
          hash := "",
          search := if cfgDefault.ignoreParams then "" else exFrag.search }, []) ∧
    normalizeUrl cfgDefault (.malformed "::bad") exHome [] =
      (none, [normalizeErrorMsg (.malformed "::bad")]) :=
  ⟨(normalizeUrl_spec cfgDefault (.abs exFrag) exHome []).1 exFrag rfl,
   (normalizeUrl_spec cfgDefault (.malformed "::bad") exHome []).2 rfl⟩

/-- C9 counterexample: a button labeled "Log Out" is classified unsafe by
the code (its regex also contains the pattern `log out`), yet none of the
four danger words the claim lists — logout, sign out, delete, remove —
occurs in the lowercased text. -/
theorem isSafeButton_log_out_cex :
    isSafeButton "Log Out" = false ∧
    ((["logout", "sign out", "delete", "remove"] : List String).all
      (fun w => ! substrB w (lowerStr "Log Out"))) = true := by
  exact ⟨by decide, by decide⟩

/-- C10: `addEdge` appends exactly one edge and leaves the node map
completely unchanged — it neither requires nor creates node entries for
the edge's endpoints — and consequently a crawl reaches states whose
graph contains a `link` edge whose target id is not a key of the node
map: with `maxPages = 1`, the home page's edge to `/about` dangles, as
`/about` is never visited. -/
theorem addEdge_frame_and_dangling_edge :
    (∀ (g : SiteGraph) (u v : URLParts) (ty tx sel : String),
      (addEdge g u v ty tx sel).nodes = g.nodes ∧
      (addEdge g u v ty tx sel).edges =
        g.edges ++ [{ from_ := getNodeId u, to_ := getNodeId v,
                      type := ty, text := tx, selector := sel }]) ∧
    ((crawlFinal siteHomeAbout cfgOnePage "example.com" exHome).graph.edges.any
      (fun e => e.type == "link" &&
        !((crawlFinal siteHomeAbout cfgOnePage "example.com" exHome).graph.nodes.any
          (fun p => p.1 == e.to_)))) = true := by
  constructor
  · intro g u v ty tx sel
    exact ⟨rfl, rfl⟩
  · decide
